import Mathlib

/-
  Shallow embedding of the Email Agent utility layer:
  the Domain/Email Classifier and the Backoff Executor of
  `src/utils.py`, with the static configuration of `src/config.py`.

  Strings are modelled as Lean `String` values, manipulated through
  their underlying character lists.  Each Python primitive used by the
  source (`str.lower`, `str.strip`, `in`, `str.split`, list indexing,
  `re.match`, `re.search`) is embedded by an explicit Lean function
  defined below, faithful to CPython semantics on the ASCII inputs the
  program works with.  In particular the semantics of the regex
  end-anchor `$` (which also matches just before a trailing newline) is
  preserved.
-/

namespace EmailAgent

/-- ASCII lower-casing of one character: the effect of Python `str.lower`
    on ASCII characters (non-ASCII characters are left unchanged, which
    agrees with CPython on the ASCII range). -/
def pyLowerChar (c : Char) : Char :=
  if 'A' ≤ c ∧ c ≤ 'Z' then Char.ofNat (c.toNat + 32) else c

/-- Python `str.lower` (ASCII fragment). -/
def pyLower (s : String) : String :=
  String.mk (s.data.map pyLowerChar)

/-- The ASCII whitespace characters removed by Python `str.strip()`. -/
def isPyWs (c : Char) : Bool :=
  c == ' ' || c == '\t' || c == '\n' || c == '\r' || c == '\x0b' || c == '\x0c'

/-- Python `str.strip()`: remove leading and trailing whitespace. -/
def pyStrip (s : String) : String :=
  String.mk (((s.data.dropWhile isPyWs).reverse.dropWhile isPyWs).reverse)

/-- `listStartsWith l p`: `l` begins with the pattern `p`. -/
def listStartsWith : List Char → List Char → Bool
  | _, [] => true
  | [], _ :: _ => false
  | c :: cs, p :: ps => c == p && listStartsWith cs ps

/-- `listEndsWith l p`: `l` ends with the pattern `p`. -/
def listEndsWith (l p : List Char) : Bool :=
  listStartsWith l.reverse p.reverse

/-- `listHasSub l p`: the pattern `p` occurs somewhere inside `l`
    (substring search, as performed by an unanchored `re.search`). -/
def listHasSub (l p : List Char) : Bool :=
  (List.range (l.length + 1)).any (fun i => listStartsWith (l.drop i) p)

/-- Python `email.split(sep)` for a one-character separator: the list of
    (possibly empty) segments between occurrences of `sep`. -/
def splitOnChar (sep : Char) : List Char → List (List Char)
  | [] => [[]]
  | c :: cs =>
    if c == sep then [] :: splitOnChar sep cs
    else
      match splitOnChar sep cs with
      | [] => [[c]]
      | p :: ps => (c :: p) :: ps

/-- Python `c in s` for a one-character needle. -/
def pyIn (c : Char) (s : String) : Bool :=
  s.data.contains c

/-!  ### Static configuration (`src/config.py`)  -/

/-- `PERSONAL_EMAIL_DOMAINS` of `src/config.py`: the static set of
    consumer-webmail domains (modelled as a list; the source is a Python
    set, used only through membership tests). -/
def PERSONAL_EMAIL_DOMAINS : List String :=
  [ "gmail.com", "yahoo.com", "hotmail.com", "outlook.com", "icloud.com",
    "aol.com", "protonmail.com", "proton.me", "mail.com", "zoho.com",
    "yandex.com", "gmx.com", "fastmail.com", "tutanota.com", "hey.com" ]

/-- The end-anchored pattern search `re.search(pat + "$", s)` for a
    literal pattern `pat`: the pattern must occur at the very end of the
    string, or just before a trailing newline (CPython `$` semantics). -/
def endAnchor (s : String) (pat : String) : Bool :=
  listEndsWith s.data pat.data || listEndsWith s.data (pat ++ "\n").data

/-- Lower-case hexadecimal digit, the character class `[0-9a-f]`. -/
def isHexLower (c : Char) : Bool :=
  c.isDigit || ('a' ≤ c ∧ 'f' ≥ c : Bool)

/-- `re.search(r"^fd[0-9a-f]{2}:", s)`: the string starts with `fd`,
    two lower-case hex digits, then a colon. -/
def matchFdHex : List Char → Bool
  | 'f' :: 'd' :: a :: b :: ':' :: _ => isHexLower a && isHexLower b
  | _ => false

/-- `BLOCKED_DOMAIN_PATTERNS` of `src/config.py`, in source order.  Each
    entry is the `re.search` semantics of the corresponding regex:
    * `^127\.` , `^10\.` , `^192\.168\.` , `^169\.254\.` , `^0\.` ,
      `^fe80:` — anchored at the start, so a start-of-string test;
    * `^172\.(1[6-9]|2[0-9]|3[01])\.` — `172.` then a number 16–31 then `.`;
    * `^::1$` — both anchors, so the whole string (up to a trailing
      newline tolerated by `$`);
    * `^fd[0-9a-f]{2}:` — `fd`, two hex digits, a colon;
    * `localhost` — unanchored, so a substring search;
    * `\.internal$` , `\.local$` , `\.localdomain$` , `\.corp$` ,
      `\.lan$` — anchored at the end, so an end-of-string test. -/
def BLOCKED_DOMAIN_PATTERNS : List (String → Bool) :=
  [ fun s => listStartsWith s.data "127.".data,
    fun s => listStartsWith s.data "10.".data,
    fun s => ["16","17","18","19","20","21","22","23","24",
              "25","26","27","28","29","30","31"].any
               (fun t => listStartsWith s.data ("172." ++ t ++ ".").data),
    fun s => listStartsWith s.data "192.168.".data,
    fun s => listStartsWith s.data "169.254.".data,
    fun s => listStartsWith s.data "0.".data,
    fun s => s == "::1" || s == "::1\n",
    fun s => matchFdHex s.data,
    fun s => listStartsWith s.data "fe80:".data,
    fun s => listHasSub s.data "localhost".data,
    fun s => endAnchor s ".internal",
    fun s => endAnchor s ".local",
    fun s => endAnchor s ".localdomain",
    fun s => endAnchor s ".corp",
    fun s => endAnchor s ".lan" ]

/-!  ### The Domain/Email Classifier (`src/utils.py`)  -/

/-- Local-part character class of the validation regex: `[a-zA-Z0-9._%+-]`. -/
def isLocalChar (c : Char) : Bool :=
  c.isAlpha || c.isDigit || c == '.' || c == '_' || c == '%' || c == '+' || c == '-'

/-- Domain character class of the validation regex: `[a-zA-Z0-9.-]`. -/
def isDomainChar (c : Char) : Bool :=
  c.isAlpha || c.isDigit || c == '.' || c == '-'

/-- The language of the regex body
    `^[a-zA-Z0-9._%+-]+@[a-zA-Z0-9.-]+\.[a-zA-Z]{2,}$` on a whole string:
    there are positions `i < j` holding `@` and `.` such that the part
    before the `@` is a non-empty run of local-part characters, the part
    between `@` and that `.` is a non-empty run of domain characters, and
    the part after the `.` is at least two alphabetic characters. -/
def emailCore (cs : List Char) : Bool :=
  (List.range cs.length).any fun i =>
    (List.range cs.length).any fun j =>
      decide (i < j) && (cs.getD i ' ' == '@') && (cs.getD j ' ' == '.')
        && !(cs.take i).isEmpty && (cs.take i).all isLocalChar
        && !((cs.drop (i+1)).take (j - i - 1)).isEmpty
        && ((cs.drop (i+1)).take (j - i - 1)).all isDomainChar
        && (cs.drop (j+1)).all Char.isAlpha
        && decide (2 ≤ (cs.drop (j+1)).length)

/-- `bool(re.match(pattern, email))` for the validation regex: with both
    anchors present, the regex must consume the whole string — or, by
    CPython `$` semantics, the whole string short of one trailing
    newline. -/
def pyRegexMatchEmail (cs : List Char) : Bool :=
  emailCore cs || (listEndsWith cs ['\n'] && emailCore cs.dropLast)

/-- `is_valid_email` of `src/utils.py`: guard for empty input or missing
    `@`, then the anchored regex match. -/
def is_valid_email (email : String) : Bool :=
  if email.data.isEmpty || !(pyIn '@' email) then false
  else pyRegexMatchEmail email.data

/-- `is_personal_email` of `src/utils.py`: `email.split("@")[1].lower()`
    membership in the personal-domain set; `False` when no `@`. -/
def is_personal_email (email : String) : Bool :=
  if !(pyIn '@' email) then false
  else PERSONAL_EMAIL_DOMAINS.contains
         (pyLower (String.mk ((splitOnChar '@' email.data).getD 1 [])))

/-- `is_safe_domain` of `src/utils.py`: lower-case and strip the domain,
    then return `False` as soon as some blocked pattern matches
    (`re.search`), `True` when none does.  The warning log emitted on a
    block is a side effect outside the value-level model. -/
def is_safe_domain (domain : String) : Bool :=
  let domain_lower := pyStrip (pyLower domain)
  !(BLOCKED_DOMAIN_PATTERNS.any (fun p => p domain_lower))

/-- `extract_domain` of `src/utils.py`: `None` when no `@`, otherwise
    `email.split("@")[1].lower()` — the segment between the first and
    second `@`. -/
def extract_domain (email : String) : Option String :=
  if !(pyIn '@' email) then none
  else some (pyLower (String.mk ((splitOnChar '@' email.data).getD 1 [])))

/-!  ### Exception-aware variants of the classifiers

The only partial Python primitive used by the four classifiers is the
list indexing `email.split("@")[1]`, which raises `IndexError` when the
split produces fewer than two segments.  The `..._exc` variants below
repeat each classifier with that indexing modelled explicitly as a
fallible operation, so that "never throws" is a provable statement
rather than a by-construction triviality.  -/

/-- The exceptions a classifier body could raise. -/
inductive PyExn
  | indexError
deriving DecidableEq

/-- Python list indexing `l[i]` for a non-negative index: the element,
    or an `IndexError`. -/
def pyIndexList (l : List α) (i : Nat) : Except PyExn α :=
  match l.get? i with
  | some a => Except.ok a
  | none => Except.error PyExn.indexError

/-- `is_valid_email` with Python exceptions modelled: every primitive in
    its body (truthiness test, `in`, `re.match` on a constant valid
    pattern) is total. -/
def is_valid_email_exc (email : String) : Except PyExn Bool :=
  if email.data.isEmpty || !(pyIn '@' email) then Except.ok false
  else Except.ok (pyRegexMatchEmail email.data)

/-- `is_personal_email` with the `split("@")[1]` indexing modelled as a
    fallible operation. -/
def is_personal_email_exc (email : String) : Except PyExn Bool :=
  if !(pyIn '@' email) then Except.ok false
  else
    (pyIndexList (splitOnChar '@' email.data) 1).map
      (fun d => PERSONAL_EMAIL_DOMAINS.contains (pyLower (String.mk d)))

/-- `is_safe_domain` with Python exceptions modelled: every primitive in
    its body (`lower`, `strip`, `re.search` on constant valid patterns)
    is total. -/
def is_safe_domain_exc (domain : String) : Except PyExn Bool :=
  Except.ok (is_safe_domain domain)

/-- `extract_domain` with the `split("@")[1]` indexing modelled as a
    fallible operation. -/
def extract_domain_exc (email : String) : Except PyExn (Option String) :=
  if !(pyIn '@' email) then Except.ok none
  else
    (pyIndexList (splitOnChar '@' email.data) 1).map
      (fun d => some (pyLower (String.mk d)))

/-!  ### The Backoff Executor (`src/utils.py`, `retry_with_backoff`)

The wrapped operation is modelled as a map from the invocation index to
the outcome of that invocation (`Except.ok` a returned value,
`Except.error` a raised exception); the fixed positional and keyword
arguments of the source are absorbed into that map.  `max_attempts` is a
Python `int`, so it is modelled as `Int`; `base_delay` is a Python float
multiplied only by powers of two, so it is modelled exactly as `ℚ`.

An invocation of the executor is summarised by a trace: how many times
the operation was invoked, the list of delays slept (in order), and the
outcome — `Except.ok r` for a normal return of `r`, `Except.error
(some e)` for `raise last_exception` with the exception `e` of the final
attempt, and `Except.error none` for `raise last_exception` with
`last_exception` still `None` (in Python, a `TypeError`).  -/

/-- One run of the `for attempt in range(max_attempts)` loop of
    `retry_with_backoff`, over the remaining list of attempt indices,
    carrying the `last_exception` accumulator; produces the trace
    (invocation count, slept delays, outcome).  On a raise at a
    non-final attempt (`attempt < max_attempts - 1`) the delay
    `base_delay * 2 ^ attempt` is slept and the loop continues; on a
    raise at the final attempt the loop ends and `last_exception` is
    re-raised. -/
def retryAux (op : Nat → Except ε α) (maxAttempts : Int) (baseDelay : ℚ) :
    List Nat → Option ε → Nat × List ℚ × Except (Option ε) α
  | [], last => (0, [], Except.error last)
  | attempt :: rest, _ =>
    match op attempt with
    | Except.ok r => (1, [], Except.ok r)
    | Except.error e =>
      if (attempt : Int) < maxAttempts - 1 then
        let t := retryAux op maxAttempts baseDelay rest (some e)
        (t.1 + 1, (baseDelay * 2 ^ attempt) :: t.2.1, t.2.2)
      else
        (1, [], Except.error (some e))

/-- `retry_with_backoff` of `src/utils.py`: run the loop over
    `range(max_attempts)` (empty when `max_attempts <= 0`, as in Python)
    starting with `last_exception = None`. -/
def retry_with_backoff (op : Nat → Except ε α) (maxAttempts : Int) (baseDelay : ℚ) :
    Nat × List ℚ × Except (Option ε) α :=
  retryAux op maxAttempts baseDelay (List.range maxAttempts.toNat) none

/-!  ## Lemmas about the Backoff Executor  -/

/-- Running the retry loop over the attempt indices `s, …, s + n - 1` of an
    operation that raises at every invocation: every attempt is made, a
    delay `b * 2 ^ attempt` is slept after each attempt but the last, and
    the exception of the last attempt is re-raised. -/
theorem retryAux_allfail {ε α : Type} (f : Nat → ε) (M : Int) (b : ℚ) :
    ∀ (n s : Nat) (last : Option ε), 0 < n → (s : Int) + n = M →
      retryAux (fun i => (Except.error (f i) : Except ε α)) M b (List.range' s n) last =
        (n, (List.range' s (n - 1)).map (fun i => b * 2 ^ i),
          Except.error (some (f (s + n - 1)))) := by
  intro n
  induction n with
  | zero => intro s last h; exact absurd h (by omega)
  | succ m ih =>
    intro s last _ hM
    rw [List.range'_succ]
    simp only [retryAux]
    cases m with
    | zero =>
      rw [if_neg (by omega)]
      simp [List.range']
    | succ k =>
      rw [if_pos (by omega)]
      rw [ih (s + 1) (some (f s)) (Nat.succ_pos k) (by omega)]
      simp only [List.range'_succ, List.map_cons, Nat.add_sub_cancel]
      refine Prod.ext rfl (Prod.ext rfl ?_)
      simp only [show s + 1 + (k + 1) - 1 = s + (k + 1 + 1) - 1 from by omega]

/-- C3: for an operation that raises (`f i` at its `i`-th invocation) on
    every invocation and any `max_attempts ≥ 1`, `retry_with_backoff`
    invokes the operation exactly `max_attempts` times, sleeps
    `base_delay * 2 ^ attempt` after each non-final failed attempt
    (zero-indexed, so the delays are `b, 2b, 4b, …`), and re-raises the
    exact exception value of the final attempt, unwrapped. -/
theorem retry_allfail_trace {ε α : Type} (f : Nat → ε) (M : Int) (b : ℚ)
    (hM : 1 ≤ M) :
    retry_with_backoff (fun i => (Except.error (f i) : Except ε α)) M b =
      (M.toNat, (List.range (M.toNat - 1)).map (fun i => b * 2 ^ i),
        Except.error (some (f (M.toNat - 1)))) := by
  unfold retry_with_backoff
  rw [List.range_eq_range',
    retryAux_allfail f M b M.toNat 0 none (by omega) (by omega)]
  rw [List.range_eq_range']
  simp

/-- Running the retry loop over the attempt indices `s, …, s + n - 1` of an
    operation that raises at invocations `0, …, k - 1` and returns `a` at
    invocation `k`, where `s ≤ k < s + n` and `k` is below the attempt
    bound: the loop stops at attempt `k` with result `a`, having slept
    after each of the failed attempts only. -/
theorem retryAux_succeeds {ε α : Type} (f : Nat → ε) (a : α) (k : Nat) (M : Int)
    (b : ℚ) (hk : (k : Int) < M) :
    ∀ (n s : Nat) (last : Option ε), s ≤ k → k < s + n →
      retryAux (fun i => if i < k then Except.error (f i) else Except.ok a) M b
        (List.range' s n) last =
        (k - s + 1, (List.range' s (k - s)).map (fun i => b * 2 ^ i),
          Except.ok a) := by
  intro n
  induction n with
  | zero => intro s last hs hlt; exact absurd hlt (by omega)
  | succ m ih =>
    intro s last hs hlt
    rw [List.range'_succ]
    simp only [retryAux]
    rcases Nat.lt_or_ge s k with hsk | hsk
    · have hc : (s : Int) < M - 1 := by omega
      rw [if_pos hsk]
      simp only [hc, if_true]
      rw [ih (s + 1) (some (f s)) (by omega) (by omega)]
      have hks : k - s = (k - (s + 1)) + 1 := by omega
      rw [hks, List.range'_succ, List.map_cons]
    · have hsk' : s = k := by omega
      subst hsk'
      rw [if_neg (by omega)]
      simp [List.range']

/-- C7: for an operation that succeeds at attempt `k` (after failing at
    the earlier attempts), `retry_with_backoff` returns immediately with
    that attempt's result: the operation is invoked exactly `k + 1` times,
    only the `k` failed attempts are followed by a sleep, and the result
    value is returned unchanged — for an arbitrary result type and value,
    so in particular for falsy-but-valid results such as `none`; with
    `k = 0` the operation is invoked exactly once. -/
theorem retry_success_trace {ε α : Type} (f : Nat → ε) (a : α) (k : Nat) (M : Int)
    (b : ℚ) (hk : (k : Int) < M) :
    retry_with_backoff (fun i => if i < k then Except.error (f i) else Except.ok a)
        M b =
      (k + 1, (List.range k).map (fun i => b * 2 ^ i), Except.ok a) := by
  unfold retry_with_backoff
  rw [List.range_eq_range',
    retryAux_succeeds f a k M b hk M.toNat 0 none (by omega) (by omega)]
  rw [List.range_eq_range']
  simp

/-- `Except.mapError` on a raised exception. -/
theorem exceptMapError_error {ε ε' α : Type} (g : ε → ε') (e : ε) :
    (Except.error e : Except ε α).mapError g = Except.error (g e) := rfl

/-- `Except.mapError` on a normal result. -/
theorem exceptMapError_ok {ε ε' α : Type} (g : ε → ε') (r : α) :
    (Except.ok r : Except ε α).mapError g = Except.ok r := rfl

/-- The retry loop is natural in the exception values: transporting every
    raised exception along `g` leaves the invocation count and delays
    unchanged and transports the outcome along `g`. -/
theorem retryAux_mapError {ε ε' α : Type} (op : Nat → Except ε α) (g : ε → ε')
    (M : Int) (b : ℚ) :
    ∀ (l : List Nat) (last : Option ε),
      retryAux (fun i => (op i).mapError g) M b l (last.map g) =
        ((retryAux op M b l last).1, (retryAux op M b l last).2.1,
          (retryAux op M b l last).2.2.mapError (Option.map g)) := by
  intro l
  induction l with
  | nil => intro last; simp [retryAux, exceptMapError_error]
  | cons attempt rest ih =>
    intro last
    simp only [retryAux]
    rcases hop : op attempt with e | r
    · simp only [exceptMapError_error]
      by_cases hc : (attempt : Int) < M - 1
      · simp only [if_pos hc]
        rw [show (some (g e)) = (some e).map g from rfl, ih (some e)]
      · simp only [if_neg hc]
        simp [exceptMapError_error]
    · simp only [exceptMapError_ok]

/-- C4: `retry_with_backoff` performs no classification of error kinds.
    For every operation and every translation `g` of its exception values
    (in particular, a change of the exception type), running the executor
    on the translated operation gives the same invocation count and the
    same sleep delays, and an outcome that is the original outcome with
    the raised exception carried over verbatim along `g`: the retry
    policy depends only on where failures occur, never on the exception
    type or value raised. -/
theorem retry_error_kind_blind {ε ε' α : Type} (op : Nat → Except ε α)
    (g : ε → ε') (M : Int) (b : ℚ) :
    retry_with_backoff (fun i => (op i).mapError g) M b =
      ((retry_with_backoff op M b).1, (retry_with_backoff op M b).2.1,
        (retry_with_backoff op M b).2.2.mapError (Option.map g)) := by
  unfold retry_with_backoff
  rw [show (none : Option ε') = Option.map g none from rfl]
  exact retryAux_mapError op g M b (List.range M.toNat) none

/-- C10: with `max_attempts ≤ 0` the loop body of `retry_with_backoff`
    never runs — the operation is invoked zero times, nothing is slept —
    and the function does not return a result: the final re-raise runs
    with `last_exception` still `None` (outcome `Except.error none`,
    which in Python raises a `TypeError` from `raise None`). -/
theorem retry_nonpositive_raises {ε α : Type} (op : Nat → Except ε α)
    (M : Int) (b : ℚ) (hM : M ≤ 0) :
    retry_with_backoff op M b = (0, [], Except.error none) := by
  unfold retry_with_backoff
  rw [show M.toNat = 0 from by omega]
  rfl

/-- Witness for C3 at a concrete instance: an operation raising `i` at
    its `i`-th invocation, three attempts, base delay `1`: three
    invocations, sleeps `1` and `2`, and the final attempt's exception
    `2` re-raised. -/
theorem retry_allfail_trace_witness :
    retry_with_backoff (fun i => (Except.error i : Except Nat Nat)) 3 1 =
      (3, [1, 2], Except.error (some 2)) := by
  have h := retry_allfail_trace (ε := Nat) (α := Nat) (fun i => i) 3 1 (by norm_num)
  exact h.trans (by norm_num [show Int.toNat 3 = 3 from rfl, List.range_succ])

/-- Witness for C7 at a concrete instance: an operation succeeding at its
    first invocation with the falsy-but-valid result `none`, three
    attempts allowed: exactly one invocation, no sleeps, result returned
    unchanged. -/
theorem retry_success_trace_witness :
    retry_with_backoff
        (fun i => if i < 0 then Except.error i else Except.ok (none : Option Nat))
        3 1 =
      (1, [], Except.ok none) := by
  have h := retry_success_trace (ε := Nat) (α := Option Nat)
    (fun i => i) none 0 3 1 (by norm_num)
  exact h.trans (by norm_num)

/-- Witness for C10 at a concrete instance: `max_attempts = 0` on an
    operation that would succeed — never invoked, and the call raises
    the `None` re-raise outcome instead of returning. -/
theorem retry_nonpositive_raises_witness :
    retry_with_backoff (fun _ => (Except.ok 5 : Except Nat Nat)) 0 1 =
      (0, [], Except.error none) :=
  retry_nonpositive_raises (fun _ => (Except.ok 5 : Except Nat Nat)) 0 1 (by norm_num)

/-!  ## Lemmas about the Domain/Email Classifier  -/

/-- C6: the concrete safe/blocked table of `is_safe_domain`: every listed
    loopback, private-range, link-local, IPv6 and internal-suffix input
    is blocked, the three public domains are allowed, and the input is
    trimmed and lower-cased first, so `"  LOCALHOST  "` is blocked. -/
theorem is_safe_domain_table :
    is_safe_domain "127.0.0.1" = false
    ∧ is_safe_domain "10.0.0.1" = false
    ∧ is_safe_domain "192.168.1.1" = false
    ∧ is_safe_domain "172.16.0.1" = false
    ∧ is_safe_domain "169.254.1.1" = false
    ∧ is_safe_domain "localhost" = false
    ∧ is_safe_domain "server.internal" = false
    ∧ is_safe_domain "server.local" = false
    ∧ is_safe_domain "server.corp" = false
    ∧ is_safe_domain "server.lan" = false
    ∧ is_safe_domain "::1" = false
    ∧ is_safe_domain "fd00::1" = false
    ∧ is_safe_domain "fe80::1" = false
    ∧ is_safe_domain "google.com" = true
    ∧ is_safe_domain "acme.com" = true
    ∧ is_safe_domain "example.org" = true
    ∧ is_safe_domain "  LOCALHOST  " = false := by
  decide

/-- C1: the blocked patterns are applied with `re.search`, not a full
    match, to the lower-cased and trimmed domain.  Consequently any
    domain whose normalised form merely ends in one of the anchored
    suffix tokens `.internal`, `.local`, `.localdomain`, `.corp`, `.lan`
    (for instance a subdomain ending in `.corp`) is blocked, and any
    domain containing the unanchored token `localhost` anywhere as a
    substring is blocked. -/
theorem is_safe_domain_search_semantics :
    (∀ (d pat : String),
        pat ∈ [".internal", ".local", ".localdomain", ".corp", ".lan"] →
        listEndsWith (pyStrip (pyLower d)).data pat.data = true →
        is_safe_domain d = false)
    ∧ (∀ d : String,
        listHasSub (pyStrip (pyLower d)).data "localhost".data = true →
        is_safe_domain d = false) := by
  constructor
  · intro d pat hpat h
    fin_cases hpat <;>
      simp [is_safe_domain, BLOCKED_DOMAIN_PATTERNS, endAnchor, h]
  · intro d h
    simp [is_safe_domain, BLOCKED_DOMAIN_PATTERNS, h]

/-- Witness for C1 at a concrete instance: a multi-label subdomain whose
    normalised form ends in `.corp` is blocked, though the string
    `.corp` alone is not the whole domain. -/
theorem is_safe_domain_search_semantics_witness :
    is_safe_domain "WWW.Dev.CORP" = false :=
  is_safe_domain_search_semantics.1 "WWW.Dev.CORP" ".corp" (by decide) (by decide)

/-- C8: every domain of the static personal-domain set is classified as
    personal when attached to a `user@` local part; the corporate domain
    `acme.com` is not; membership is decided on the case-folded extracted
    domain; and a string without `@` is never personal. -/
theorem is_personal_email_domains :
    PERSONAL_EMAIL_DOMAINS.all (fun d => is_personal_email ("user@" ++ d)) = true
    ∧ is_personal_email "user@acme.com" = false
    ∧ is_personal_email "user@GMail.COM" = true
    ∧ ∀ s : String, pyIn '@' s = false → is_personal_email s = false := by
  refine ⟨by decide, by decide, by decide, ?_⟩
  intro s h
  simp [is_personal_email, h]

/-- Witness for C8 at a concrete instance: a string with no `@` is not a
    personal email. -/
theorem is_personal_email_domains_witness :
    is_personal_email "notanemail" = false :=
  is_personal_email_domains.2.2.2 "notanemail" (by decide)

/-- A split never produces an empty list of segments. -/
theorem splitOnChar_ne_nil (sep : Char) (l : List Char) :
    splitOnChar sep l ≠ [] := by
  induction l with
  | nil => simp [splitOnChar]
  | cons c cs ih =>
    cases h : c == sep with
    | true => simp [splitOnChar, h]
    | false =>
      rcases hcs : splitOnChar sep cs with _ | ⟨p, ps⟩
      · exact absurd hcs ih
      · simp [splitOnChar, h, hcs]

/-- A split produces one segment more than there are separators. -/
theorem splitOnChar_length (sep : Char) (l : List Char) :
    (splitOnChar sep l).length = l.count sep + 1 := by
  induction l with
  | nil => simp [splitOnChar]
  | cons c cs ih =>
    cases h : c == sep with
    | true =>
      have he : c = sep := by simpa using h
      simp [splitOnChar, h, he, ih]
    | false =>
      rcases hcs : splitOnChar sep cs with _ | ⟨p, ps⟩
      · exact absurd hcs (splitOnChar_ne_nil sep cs)
      · rw [hcs] at ih
        simp only [List.length_cons] at ih
        simp [splitOnChar, h, hcs, List.count_cons]
        omega

/-- The first segment of a split is the run of non-separator characters
    at the front of the list. -/
theorem splitOnChar_getD_zero (sep : Char) (l : List Char) :
    (splitOnChar sep l).getD 0 [] = l.takeWhile (fun c => c != sep) := by
  induction l with
  | nil => simp [splitOnChar]
  | cons c cs ih =>
    cases h : c == sep with
    | true =>
      have he : c = sep := by simpa using h
      simp [splitOnChar, h, he, List.takeWhile_cons]
    | false =>
      rcases hcs : splitOnChar sep cs with _ | ⟨p, ps⟩
      · exact absurd hcs (splitOnChar_ne_nil sep cs)
      · rw [hcs] at ih
        have hne : c ≠ sep := by simpa using h
        simp [splitOnChar, h, hcs, List.takeWhile_cons, hne] at ih ⊢
        exact ih

/-- The second segment of a split is what follows the first separator up
    to the next separator (or the end). -/
theorem splitOnChar_getD_one (sep : Char) (l : List Char) :
    (splitOnChar sep l).getD 1 [] =
      ((l.dropWhile (fun c => c != sep)).drop 1).takeWhile (fun c => c != sep) := by
  induction l with
  | nil => simp [splitOnChar]
  | cons c cs ih =>
    cases h : c == sep with
    | true =>
      have he : c = sep := by simpa using h
      have hz := splitOnChar_getD_zero sep cs
      simp only [List.getD_eq_getElem?_getD] at hz
      simp [splitOnChar, h, he, List.dropWhile_cons, hz]
    | false =>
      rcases hcs : splitOnChar sep cs with _ | ⟨p, ps⟩
      · exact absurd hcs (splitOnChar_ne_nil sep cs)
      · rw [hcs] at ih
        have hne : c ≠ sep := by simpa using h
        simp [splitOnChar, h, hcs, List.dropWhile_cons, hne] at ih ⊢
        exact ih

/-- Python list indexing succeeds below the length, and agrees with the
    defaulted access. -/
theorem pyIndexList_ok_of_lt {α : Type} (l : List α) (i : Nat) (d : α)
    (h : i < l.length) :
    pyIndexList l i = Except.ok (l.getD i d) := by
  unfold pyIndexList
  rcases hg : l.get? i with _ | a
  · rw [List.get?_eq_none] at hg; omega
  · rw [List.getD_eq_getElem?_getD, ← List.get?_eq_getElem?, hg]
    rfl

/-- When the split has at least two segments, indexing at `1` cannot
    raise. -/
theorem splitOnChar_index_one_ok (s : String) (h : pyIn '@' s = true) :
    pyIndexList (splitOnChar '@' s.data) 1 =
      Except.ok ((splitOnChar '@' s.data).getD 1 []) := by
  apply pyIndexList_ok_of_lt
  rw [splitOnChar_length]
  have hmem : '@' ∈ s.data := by
    have := h
    unfold pyIn at this
    exact List.elem_iff.mp this
  have := List.count_pos_iff.mpr hmem
  omega

/-- C9: the four classifiers are total and never raise.  Each `..._exc`
    variant models the Python exceptions of the corresponding classifier
    body (the only fallible primitive is the `split("@")[1]` indexing);
    on every input, including empty and malformed strings, it returns a
    normal value — the classifier's sentinel-style result — and never an
    exception. -/
theorem classifiers_never_throw (s : String) :
    is_valid_email_exc s = Except.ok (is_valid_email s)
    ∧ is_personal_email_exc s = Except.ok (is_personal_email s)
    ∧ is_safe_domain_exc s = Except.ok (is_safe_domain s)
    ∧ extract_domain_exc s = Except.ok (extract_domain s) := by
  refine ⟨?_, ?_, rfl, ?_⟩
  · unfold is_valid_email_exc is_valid_email
    split <;> rfl
  · unfold is_personal_email_exc is_personal_email
    cases h : pyIn '@' s with
    | false => simp
    | true => simp [splitOnChar_index_one_ok s h, Except.map]
  · unfold extract_domain_exc extract_domain
    cases h : pyIn '@' s with
    | false => simp
    | true => simp [splitOnChar_index_one_ok s h, Except.map]

/-- C2 counterexample: the claim says `extract_domain` returns the whole
    remainder of the string after the first `@`, which on
    `"user@domain@example.com"` would be `"domain@example.com"`; the code
    (`email.split("@")[1]`) returns only `"domain"`, the segment before
    the second `@` — exactly what the repository's own test
    `test_multiple_at_symbols` asserts. -/
theorem extract_domain_cx :
    extract_domain "user@domain@example.com" = some "domain"
    ∧ extract_domain "user@domain@example.com" ≠ some "domain@example.com" := by
  refine ⟨by decide, by decide⟩

/-- C2 (amended): `extract_domain` returns the segment of the input
    between the first `@` and the following `@` or end of string
    (`split("@")[1]`), lower-cased; it returns `none` exactly when the
    string contains no `@`; in particular `"user@"` yields the empty
    string, distinct from `none`, and `"notanemail"` yields `none`. -/
theorem extract_domain_spec :
    (∀ email : String,
      extract_domain email =
        if pyIn '@' email then
          some (pyLower (String.mk
            (((email.data.dropWhile (fun c => c != '@')).drop 1).takeWhile
              (fun c => c != '@'))))
        else none)
    ∧ extract_domain "user@" = some ""
    ∧ extract_domain "notanemail" = none := by
  refine ⟨?_, by decide, by decide⟩
  intro email
  unfold extract_domain
  rw [splitOnChar_getD_one]
  cases h : pyIn '@' email <;> simp [h]

/-- Dropping up to a valid index exposes the element at that index. -/
theorem drop_eq_getD_cons {cs : List Char} {i : Nat} (hi : i < cs.length) :
    cs.drop i = cs.getD i ' ' :: cs.drop (i + 1) := by
  induction cs generalizing i with
  | nil => simp at hi
  | cons c tl ih =>
    cases i with
    | zero => simp
    | succ n =>
      simp only [List.drop_succ_cons, List.getD_cons_succ]
      exact ih (by simpa using hi)

/-- A list all of whose elements satisfy `p` contains no element on which
    `p` is false. -/
theorem count_eq_zero_of_all {p : Char → Bool} {l : List Char}
    (h : l.all p = true) {a : Char} (ha : p a = false) : l.count a = 0 := by
  rw [List.count_eq_zero]
  intro hmem
  have := List.all_eq_true.mp h a hmem
  rw [ha] at this
  exact absurd this (by simp)

/-- The characters that can occur anywhere in a string matched by the
    body of the validation regex. -/
def emailAllowedChar (c : Char) : Bool :=
  isLocalChar c || c == '@' || isDomainChar c || c.isAlpha

/-- A string matched by the body of the validation regex contains exactly
    one `@`, and every one of its characters is drawn from the regex's
    character classes. -/
theorem emailCore_props {cs : List Char} (h : emailCore cs = true) :
    cs.count '@' = 1 ∧ ∀ c ∈ cs, emailAllowedChar c = true := by
  unfold emailCore at h
  rw [List.any_eq_true] at h
  obtain ⟨i, hi, h⟩ := h
  rw [List.any_eq_true] at h
  obtain ⟨j, hj, h⟩ := h
  rw [List.mem_range] at hi hj
  simp only [Bool.and_eq_true] at h
  obtain ⟨⟨⟨⟨⟨⟨⟨⟨h1, h2⟩, h3⟩, h4⟩, h5⟩, h6⟩, h7⟩, h8⟩, h9⟩ := h
  have hat : cs.getD i ' ' = '@' := by simpa using h2
  have hdot : cs.getD j ' ' = '.' := by simpa using h3
  have hij : i < j := of_decide_eq_true h1
  have e2 : cs.drop i = '@' :: cs.drop (i + 1) := by
    rw [drop_eq_getD_cons hi, hat]
  have e5 : cs.drop j = '.' :: cs.drop (j + 1) := by
    rw [drop_eq_getD_cons hj, hdot]
  have e4 : (cs.drop (i + 1)).drop (j - i - 1) = cs.drop j := by
    rw [List.drop_drop]
    congr 1
    omega
  have e3 : cs.drop (i + 1) =
      (cs.drop (i + 1)).take (j - i - 1) ++ '.' :: cs.drop (j + 1) := by
    conv_lhs => rw [← List.take_append_drop (j - i - 1) (cs.drop (i + 1))]
    rw [e4, e5]
  have hcs : cs = cs.take i ++ '@' ::
      ((cs.drop (i + 1)).take (j - i - 1) ++ '.' :: cs.drop (j + 1)) := by
    conv_lhs => rw [← List.take_append_drop i cs, e2, e3]
  have hA0 : (cs.take i).count '@' = 0 := count_eq_zero_of_all h5 (by decide)
  have hD0 : ((cs.drop (i + 1)).take (j - i - 1)).count '@' = 0 :=
    count_eq_zero_of_all h7 (by decide)
  have hB0 : (cs.drop (j + 1)).count '@' = 0 := count_eq_zero_of_all h8 (by decide)
  constructor
  · rw [hcs]
    simp [List.count_append, List.count_cons, hA0, hD0, hB0]
  · intro c hcmem
    rw [hcs] at hcmem
    simp only [List.mem_append, List.mem_cons] at hcmem
    rcases hcmem with hA | rfl | hD | rfl | hB
    · have := List.all_eq_true.mp h5 c hA
      simp [emailAllowedChar, this]
    · decide
    · have := List.all_eq_true.mp h7 c hD
      simp [emailAllowedChar, this]
    · decide
    · have := List.all_eq_true.mp h8 c hB
      simp [emailAllowedChar, this]

/-- A list ending in the one-character pattern `[c]` is its own
    front part followed by `c`. -/
theorem eq_dropLast_append_of_endsWith {cs : List Char} {c : Char}
    (h : listEndsWith cs [c] = true) : cs = cs.dropLast ++ [c] := by
  unfold listEndsWith at h
  rcases hr : cs.reverse with _ | ⟨d, rest⟩
  · rw [hr] at h; simp [listStartsWith] at h
  · rw [hr] at h
    simp only [listStartsWith, Bool.and_eq_true, beq_iff_eq] at h
    have hd : d = c := h.1
    have hcs : cs = rest.reverse ++ [d] := by
      have := congrArg List.reverse hr
      simpa using this
    rw [hcs, hd, List.dropLast_concat]

/-- No Python whitespace character belongs to the validation regex's
    character classes. -/
theorem ws_not_allowed {c : Char} (hw : isPyWs c = true) :
    emailAllowedChar c = false := by
  unfold isPyWs at hw
  simp only [Bool.or_eq_true, beq_iff_eq] at hw
  rcases hw with ((((h | h) | h) | h) | h) | h <;> subst h <;> decide

/-- A string accepted by the validation regex match (`re.match` with both
    anchors, including its tolerance of one trailing newline) contains
    exactly one `@`. -/
theorem pyRegexMatchEmail_count {cs : List Char}
    (h : pyRegexMatchEmail cs = true) : cs.count '@' = 1 := by
  unfold pyRegexMatchEmail at h
  cases hcore : emailCore cs with
  | true => exact (emailCore_props hcore).1
  | false =>
    rw [hcore] at h
    simp only [Bool.false_or, Bool.and_eq_true] at h
    obtain ⟨hnl, hcore'⟩ := h
    have hdec := eq_dropLast_append_of_endsWith hnl
    calc cs.count '@' = (cs.dropLast ++ ['\n']).count '@' := by rw [← hdec]
    _ = cs.dropLast.count '@' := by
        simp [List.count_append, List.count_cons]
    _ = 1 := (emailCore_props hcore').1

/-- The only whitespace character a string accepted by the validation
    regex match can contain is a trailing newline. -/
theorem pyRegexMatchEmail_ws {cs : List Char}
    (h : pyRegexMatchEmail cs = true) {c : Char} (hc : c ∈ cs)
    (hw : isPyWs c = true) : c = '\n' := by
  unfold pyRegexMatchEmail at h
  cases hcore : emailCore cs with
  | true =>
    have := (emailCore_props hcore).2 c hc
    rw [ws_not_allowed hw] at this
    exact absurd this (by simp)
  | false =>
    rw [hcore] at h
    simp only [Bool.false_or, Bool.and_eq_true] at h
    obtain ⟨hnl, hcore'⟩ := h
    have hdec := eq_dropLast_append_of_endsWith hnl
    by_contra hne
    have hc' : c ∈ cs.dropLast := by
      rw [hdec] at hc
      rcases List.mem_append.mp hc with h' | h'
      · exact h'
      · simp at h'
        exact absurd h' hne
    have := (emailCore_props hcore').2 c hc'
    rw [ws_not_allowed hw] at this
    exact absurd this (by simp)

/-- C5 counterexample: the claim says `is_valid_email` rejects every
    string containing whitespace, and returns false for every string not
    exactly of the shape `local-part@domain.tld`; but the source's
    `re.match(r"...$", email)` end-anchor also matches just before a
    trailing newline (CPython `$` semantics), so the whitespace-carrying
    string `"user@domain.com\n"` is accepted. -/
theorem is_valid_email_ws_cx :
    is_valid_email "user@domain.com\n" = true
    ∧ '\n' ∈ "user@domain.com\n".data
    ∧ isPyWs '\n' = true := by
  refine ⟨by decide, by decide, by decide⟩

/-- C5 (amended): `is_valid_email` returns false for empty input, for
    every string with no `@`, for every string with two or more `@`, and
    for every string containing a whitespace character other than a
    trailing newline; it accepts `+`-tagged local parts,
    hyphenated/multi-label domains and either letter case, rejects a
    missing dot-TLD and disallowed local-part characters — but a single
    trailing newline after an otherwise valid address is accepted,
    because the regex end-anchor `$` also matches before a final
    newline. -/
theorem is_valid_email_spec :
    (∀ s : String, pyIn '@' s = false → is_valid_email s = false)
    ∧ (∀ s : String, 2 ≤ s.data.count '@' → is_valid_email s = false)
    ∧ (∀ (s : String) (c : Char), c ∈ s.data → isPyWs c = true → c ≠ '\n' →
        is_valid_email s = false)
    ∧ is_valid_email "" = false
    ∧ is_valid_email "user+tag@sub-domain.co.uk" = true
    ∧ is_valid_email "USER@EXAMPLE.COM" = true
    ∧ is_valid_email "user@com" = false
    ∧ is_valid_email "user!name@example.com" = false
    ∧ is_valid_email "user@domain.com\n" = true := by
  refine ⟨?_, ?_, ?_, by decide, by decide, by decide, by decide, by decide,
    by decide⟩
  · intro s h
    unfold is_valid_email
    rw [h]
    simp
  · intro s h2
    unfold is_valid_email
    split
    · rfl
    · cases hm : pyRegexMatchEmail s.data with
      | false => rfl
      | true => exact absurd (pyRegexMatchEmail_count hm) (by omega)
  · intro s c hc hw hne
    unfold is_valid_email
    split
    · rfl
    · cases hm : pyRegexMatchEmail s.data with
      | false => rfl
      | true => exact absurd (pyRegexMatchEmail_ws hm hc hw) hne

/-- Witness for C5 at a concrete instance: a string with two `@` symbols
    is rejected. -/
theorem is_valid_email_spec_witness :
    is_valid_email "user@@example.com" = false :=
  is_valid_email_spec.2.1 "user@@example.com" (by decide)

end EmailAgent

-- scratch sanity checks against the repository's own test suite
example : EmailAgent.is_valid_email "test@example.com" = true := by decide
example : EmailAgent.is_valid_email "user+tag@company.co.uk" = true := by decide
example : EmailAgent.is_valid_email "USER@EXAMPLE.COM" = true := by decide
example : EmailAgent.is_valid_email "" = false := by decide
example : EmailAgent.is_valid_email "@nodomain.com" = false := by decide
example : EmailAgent.is_valid_email "user@com" = false := by decide
example : EmailAgent.is_valid_email "user@@example.com" = false := by decide
example : EmailAgent.is_valid_email "user name@example.com" = false := by decide
example : EmailAgent.is_valid_email "user@domain.com\n" = true := by decide
example : EmailAgent.is_personal_email "user@gmail.com" = true := by decide
example : EmailAgent.is_personal_email "user@GMAIL.COM" = true := by decide
example : EmailAgent.is_personal_email "user@acme.com" = false := by decide
example : EmailAgent.is_safe_domain "google.com" = true := by decide
example : EmailAgent.is_safe_domain "localhost" = false := by decide
example : EmailAgent.is_safe_domain "172.16.0.1" = false := by decide
example : EmailAgent.is_safe_domain "fd00::1" = false := by decide
example : EmailAgent.is_safe_domain "  localhost  " = false := by decide
example : EmailAgent.is_safe_domain "Server.LOCAL" = false := by decide
example : EmailAgent.extract_domain "user@example.com" = some "example.com" := by decide
example : EmailAgent.extract_domain "user@" = some "" := by decide
example : EmailAgent.extract_domain "notanemail" = none := by decide
example : EmailAgent.extract_domain "user@domain@example.com" = some "domain" := by decide
example :
    EmailAgent.retry_with_backoff (fun i => (Except.error i : Except Nat Nat)) 3 1
      = (3, [1, 2], Except.error (some 2)) := by
  norm_num [EmailAgent.retry_with_backoff, EmailAgent.retryAux, List.range_succ]
example :
    EmailAgent.retry_with_backoff (fun _ => (Except.ok 0 : Except Nat Nat)) 3 1
      = (1, [], Except.ok 0) := by rfl
example :
    EmailAgent.retry_with_backoff (fun _ => (Except.ok 0 : Except Nat Nat)) 0 1
      = (0, [], Except.error none) := by rfl
example :
    EmailAgent.retry_with_backoff
      (fun i => if i < 2 then (Except.error i : Except Nat Nat) else Except.ok 7) 5 3
      = (3, [3, 6], Except.ok 7) := by
  norm_num [EmailAgent.retry_with_backoff, EmailAgent.retryAux, List.range_succ]
